import Mathlib

/-!
Verification of the Bitvavo_Trader repository (two Python scripts:
`evaluate_volatility.py` and `bitvavo_telegram.py`) against its
natural-language specification.

The development is a shallow embedding: each relevant Python function is
translated into a Lean definition over exact arithmetic (`ℚ` for machine
floats whose values are only compared, `ℝ` where the code computes
logarithms and square roots, `Option` for float NaN, `Except` for code
paths that raise exceptions).  Wall-clock instants observed via
`time.time()` are passed explicitly; execution of a call is treated as
instantaneous except across `time.sleep`, which advances the clock by the
slept amount.
-/

/-! ## RateGate: `reset_rate_limit` / `check_rate_limit` (evaluate_volatility.py lines 50-80)

The Python module keeps three globals: `current_weight`, `last_reset_time`
and a non-reentrant `threading.Lock` named `lock`.  `GateState` packages
the two numeric globals.  The lock matters only in one place:
`check_rate_limit` invokes `reset_rate_limit()` from inside its own
`with lock:` block after sleeping; `reset_rate_limit` then executes
`with lock:` again, and acquiring a non-reentrant lock already held by the
same thread blocks forever.  A call that can never return is modeled as
`none`. -/

/-- State of the module-level rate-limit globals `current_weight` and
`last_reset_time` of evaluate_volatility.py. -/
structure GateState where
  current_weight : ℚ
  last_reset_time : ℚ
deriving DecidableEq, Repr

/-- Translation of `RATE_LIMIT_PER_MINUTE = 1200` (line 50). -/
def RATE_LIMIT_PER_MINUTE : ℚ := 1200

/-- Translation of `WEIGHT_THRESHOLD = RATE_LIMIT_PER_MINUTE * 0.9` (line 51);
the float value 1080.0 is exact. -/
def WEIGHT_THRESHOLD : ℚ := RATE_LIMIT_PER_MINUTE * (9 / 10)

/-- Translation of `reset_rate_limit` (lines 59-67): if
`current_time - last_reset_time >= 60` it zeroes `current_weight` and sets
`last_reset_time = current_time`, doing so under `with lock:`.
`lockHeld` records whether the calling context already holds the
non-reentrant `lock`; in that case the nested `lock.acquire` never
returns, which is modeled as `none`. -/
def reset_rate_limit (lockHeld : Bool) (s : GateState) (now : ℚ) : Option GateState :=
  if 60 ≤ now - s.last_reset_time then
    if lockHeld then none
    else some { current_weight := 0, last_reset_time := now }
  else some s

/-- Translation of `check_rate_limit` (lines 69-80).  The call first runs
`reset_rate_limit()` (lock not held), then under `with lock:`: if
`current_weight + request_weight > WEIGHT_THRESHOLD` it computes
`sleep_time = 60 - (time.time() - last_reset_time)` and, when positive,
sleeps for `sleep_time` and calls `reset_rate_limit()` again — now with
the lock still held.  Afterwards it unconditionally adds `request_weight`
to `current_weight`.  `now` is the clock at entry; the clock after the
sleep is `now + sleep_time`. -/
def check_rate_limit (request_weight : ℚ) (s : GateState) (now : ℚ) : Option GateState :=
  match reset_rate_limit false s now with
  | none => none
  | some s1 =>
    if WEIGHT_THRESHOLD < s1.current_weight + request_weight then
      let sleep_time := 60 - (now - s1.last_reset_time)
      if 0 < sleep_time then
        match reset_rate_limit true s1 (now + sleep_time) with
        | none => none
        | some s2 =>
          some { current_weight := s2.current_weight + request_weight
                 last_reset_time := s2.last_reset_time }
      else
        some { current_weight := s1.current_weight + request_weight
               last_reset_time := s1.last_reset_time }
    else
      some { current_weight := s1.current_weight + request_weight
             last_reset_time := s1.last_reset_time }

/-- Sequence of gate calls: each list entry is `(request_weight, clock at entry)`.
A call that never returns (`none`) aborts the whole sequence. -/
def run_gate (calls : List (ℚ × ℚ)) (s : GateState) : Option GateState :=
  calls.foldl (fun acc c => acc.bind fun st => check_rate_limit c.1 st c.2) (some s)

/-! ## Float comparison and the `sorted(..., reverse=True)` model

Python float NaN is modeled as `none : Option α`; a defined float value is
`some x`.  The comparison `a < b` on floats is `False` whenever either
operand is NaN.  `sorted(xs, key=..., reverse=True)` is a stable sort that
keeps an earlier element `x` before a later element `y` exactly when
`not (key x < key y)`; `List.insertionSort` with that relation realizes
this stable-sort semantics (it coincides with CPython's Timsort on every
list whose keys are totally ordered; ordering among NaN keys, where the
comparator is inconsistent, is implementation-defined in CPython). -/

/-- Comparison `a < b` of two Python floats; `none` is NaN and compares
false against everything. -/
def floatLt {α : Type*} [LinearOrder α] : Option α → Option α → Prop
  | some a, some b => a < b
  | _, _ => False

instance {α : Type*} [LinearOrder α] : DecidableRel (floatLt (α := α)) := fun a b =>
  match a, b with
  | some x, some y => inferInstanceAs (Decidable (x < y))
  | none, _ => isFalse fun h => h
  | some _, none => isFalse fun h => h

/-- Stable-descending comparison used by `sorted(volatilities, key=lambda x: x[1],
reverse=True)` (line 183): an earlier entry `x` stays before a later entry `y`
exactly when `not (x[1] < y[1])`. -/
def scoreDescLe {α : Type*} [LinearOrder α] (x y : String × Option α) : Prop :=
  ¬ floatLt x.2 y.2

instance {α : Type*} [LinearOrder α] : DecidableRel (scoreDescLe (α := α)) :=
  fun _ _ => instDecidableNot

/-! ## MarketSelector: `get_top_liquid_coins` (evaluate_volatility.py lines 82-91) -/

/-- Truth of Python's `s.endswith(suffix)`, stated over the character lists
of the two strings. -/
def py_endswith (s suffix : String) : Bool := suffix.data.isSuffixOf s.data

/-- One entry of the list returned by `client.get_ticker()`: its `'symbol'`
field and its `'quoteVolume'` field after `float(...)` parsing (the parsed
float is modeled as an exact rational). -/
structure Ticker where
  symbol : String
  quoteVolume : ℚ
deriving DecidableEq, Repr

/-- Stable-descending comparison used by
`sorted(usdt_pairs, key=lambda x: float(x['quoteVolume']), reverse=True)` (line 88). -/
def tickerDescLe (a b : Ticker) : Prop := ¬ a.quoteVolume < b.quoteVolume

instance : DecidableRel tickerDescLe := fun _ _ => instDecidableNot

/-- Translation of line 87: `usdt_pairs = [t for t in tickers if t['symbol'].endswith('USDT')]`. -/
def usdt_pairs (tickers : List Ticker) : List Ticker :=
  tickers.filter fun t => py_endswith t.symbol "USDT"

/-- Translation of line 88: the USDT pairs sorted descending by quoted volume. -/
def sorted_tickers (tickers : List Ticker) : List Ticker :=
  (usdt_pairs tickers).insertionSort tickerDescLe

/-- Translation of `get_top_liquid_coins` (lines 82-91): filter to USDT pairs,
sort descending by quoted volume, return the symbols of the first `n`
(`sorted_tickers[:n]`).  The metered `check_rate_limit(40)` call and the
network fetch are the caller's input `tickers`. -/
def get_top_liquid_coins (tickers : List Ticker) (n : ℕ) : List String :=
  ((sorted_tickers tickers).take n).map fun t => t.symbol

/-! ## SeriesFetcher: `fetch_candlestick_data` and the collection loop in `main`
(evaluate_volatility.py lines 93-117 and 169-173)

A data frame of fetched candles is modeled by its `close` column, a
`List ℝ`.  Everything inside the `try:` block of one fetch task — the
gate call, the `get_historical_klines` network call and the DataFrame
conversion — is abstracted into one outcome oracle
`fetchOutcome : String → Except String (List ℝ)`; `.error` is any raised
exception. -/

/-- Translation of `fetch_candlestick_data` (lines 93-117): on success it
returns `(symbol, df)`, and any exception inside the task body is caught
and turned into `(symbol, None)` for that symbol. -/
def fetch_candlestick_data (fetchOutcome : String → Except String (List ℝ))
    (symbol : String) : String × Option (List ℝ) :=
  match fetchOutcome symbol with
  | .ok df => (symbol, some df)
  | .error _ => (symbol, none)

/-- Translation of the collection loop in `main` (lines 169-173): one task is
submitted per symbol in list order, and `for future in futures:
results.append(future.result())` collects the results in submission order,
so the result list is the map of `fetch_candlestick_data` over the symbols. -/
def fetch_all_results (fetchOutcome : String → Except String (List ℝ))
    (symbols : List String) : List (String × Option (List ℝ)) :=
  symbols.map (fetch_candlestick_data fetchOutcome)

/-! ## VolatilityRanker: `calculate_volatility` (lines 119-125) and the
ranking steps of `main` (lines 176-185)

`np.log` of a nonpositive float and the pandas `std()` of fewer than two
defined observations are NaN, modeled as `none`.  (At argument exactly `0`,
`np.log` is `-inf` rather than NaN; that value lies outside this model and
is excluded by the positivity hypotheses of the theorems below.) -/

/-- Model of `np.log` on one float: defined only for positive arguments. -/
noncomputable def np_log (x : ℝ) : Option ℝ :=
  if 0 < x then some (Real.log x) else none

/-- Translation of line 123, `df['log_return'] = np.log(df['close'] / df['close'].shift(1))`:
the column has one entry per row; entry `0` is NaN because `shift(1)` puts NaN
there, and entry `i ≥ 1` is `log(close[i] / close[i-1])`. -/
noncomputable def pandas_log_return_column (closes : List ℝ) : List (Option ℝ) :=
  none :: List.zipWith (fun prev cur => np_log (cur / prev)) closes closes.tail

/-- Arithmetic mean of a list of reals. -/
noncomputable def list_mean (v : List ℝ) : ℝ := v.sum / v.length

/-- Model of the pandas `Series.std()` call on line 124: NaN entries are
skipped (`skipna`), and the sample standard deviation (`ddof = 1`) of the
remaining values is taken, which is NaN when fewer than two values remain. -/
noncomputable def pandas_std (xs : List (Option ℝ)) : Option ℝ :=
  let v := xs.filterMap id
  if v.length < 2 then none
  else some (Real.sqrt ((v.map fun x => (x - list_mean v) ^ 2).sum / ((v.length : ℝ) - 1)))

/-- Translation of `calculate_volatility` (lines 119-125): NaN for an absent
(`None`) or empty frame, otherwise `std(log returns) * sqrt(1440)` (NaN
times anything is NaN). -/
noncomputable def calculate_volatility : Option (List ℝ) → Option ℝ
  | none => none
  | some closes =>
    if closes.isEmpty then none
    else
      match pandas_std (pandas_log_return_column closes) with
      | none => none
      | some sd => some (sd * Real.sqrt 1440)

/-- Translation of step 3 of `main` (lines 176-180): symbols whose frame is
`None` are skipped, every other symbol is paired with its computed
volatility (possibly NaN). -/
noncomputable def score_volatilities (results : List (String × Option (List ℝ))) :
    List (String × Option ℝ) :=
  results.filterMap fun r =>
    match r.2 with
    | none => none
    | some df => some (r.1, calculate_volatility (some df))

/-- Translation of line 183, `sorted(volatilities, key=lambda x: x[1], reverse=True)`. -/
noncomputable def sort_volatilities (vols : List (String × Option ℝ)) :
    List (String × Option ℝ) :=
  vols.insertionSort scoreDescLe

/-- Composition of steps 3 and 4 of `main`: the sorted volatility sequence. -/
noncomputable def sorted_volatilities (results : List (String × Option (List ℝ))) :
    List (String × Option ℝ) :=
  sort_volatilities (score_volatilities results)

/-- Translation of line 184 generalized from 10 to `k`:
`[(x[0], x[1]) for x in ranked[:k] if not np.isnan(x[1])]`. -/
def top_k_volatile (k : ℕ) (ranked : List (String × Option ℝ)) :
    List (String × Option ℝ) :=
  (ranked.take k).filter fun e => e.2.isSome

/-- Model of the Python slice `l[-k:]`: the last `k` elements, except that
`l[-0:]` is the whole list. -/
def py_slice_last {α : Type*} (k : ℕ) (l : List α) : List α :=
  if k = 0 then l else l.drop (l.length - k)

/-- Translation of line 185 generalized from 10 to `k`:
`[(x[0], x[1]) for x in ranked[-k:] if not np.isnan(x[1])]`. -/
def bottom_k_volatile (k : ℕ) (ranked : List (String × Option ℝ)) :
    List (String × Option ℝ) :=
  (py_slice_last k ranked).filter fun e => e.2.isSome

/-! ## Specification-side definitions for the VolatilityRanker claim C6

These two definitions follow the words of the spec ("the log-return series
`r[i] = ln(close[i]/close[i-1])` for i ≥ 1, then `score = stddev(r) *
sqrt(1440)`"), to be compared with the code-side pipeline above. -/

/-- Log-return series exactly as the spec words it: one entry
`ln(close[i]/close[i-1])` per index `i ≥ 1`. -/
noncomputable def spec_log_returns (closes : List ℝ) : List ℝ :=
  List.zipWith (fun prev cur => Real.log (cur / prev)) closes closes.tail

/-- Standard deviation in the spec's sense applied to the log-return list:
the sample standard deviation, undefined on fewer than two elements. -/
noncomputable def spec_stddev (r : List ℝ) : Option ℝ :=
  if r.length < 2 then none
  else some (Real.sqrt ((r.map fun x => (x - list_mean r) ^ 2).sum / ((r.length : ℝ) - 1)))

/-! ## Portfolio reporter: `bitvavo_telegram.py`

`get_bitvavo_portfolio` (lines 13-71) reads two environment variables,
fetches the account balance and per-asset prices, and returns either a
result dict (keys `portfolio_value_eur`, `asset_values`,
`rate_limit_remaining`) or, from its outer `except`, a dict with the
single key `error`.  Amounts parsed by `float(...)` are modeled as exact
rationals.  External effects are an environment record: `none` for a
missing environment variable, `Except.error` for a raised exception, and
`Except.ok none` for a `tickerPrice` reply without a `'price'` key. -/

/-- One entry of the list returned by `bitvavo.balance({})`. -/
structure BAsset where
  symbol : String
  available : ℚ
  inOrder : ℚ
deriving DecidableEq, Repr

/-- External world of `bitvavo_telegram.py`: environment variables and the
outcomes of the Bitvavo client calls.  Failure of client construction or of
`bitvavo.balance` both surface as `balanceOutcome = .error`. -/
structure BitvavoEnv where
  apiKey : Option String
  apiSecret : Option String
  balanceOutcome : Except String (List BAsset)
  priceOutcome : String → Except String (Option ℚ)
  remainingLimit : ℤ

/-- Result of `get_bitvavo_portfolio`: either the normal result dict (no
`error` key) or the error dict produced by the outer `except` (only an
`error` key). -/
inductive PortfolioOutcome where
  | report (portfolio_value_eur : ℚ) (asset_values : List (String × ℚ × ℚ))
      (rate_limit_remaining : ℤ)
  | failure (msg : String)
deriving DecidableEq, Repr

/-- Truth of the Python test `"error" in portfolio_data`. -/
def PortfolioOutcome.hasErrorKey : PortfolioOutcome → Bool
  | .report .. => false
  | .failure _ => true

/-- Truthiness test Python applies in `if not api_key or not api_secret`:
a missing variable (`None`) and the empty string are both falsy. -/
def py_falsy_str : Option String → Bool
  | none => true
  | some s => s.isEmpty

/-- Body of the per-asset loop (lines 37-60): returns the asset's
contribution to `total_portfolio_value` together with the
`[symbol, total_amount, value_eur]` row appended to `asset_values`.
For `"EUR"` the contribution and the row value are `available` alone; for
any other symbol they are `(available + inOrder) * price` when the price
fetch succeeds and `0` when the reply lacks a `'price'` key or the fetch
raises (the inner `except` catches, logs and continues). -/
def process_asset (priceOutcome : String → Except String (Option ℚ)) (a : BAsset) :
    ℚ × (String × ℚ × ℚ) :=
  let total_amount := a.available + a.inOrder
  if a.symbol = "EUR" then
    (a.available, (a.symbol, total_amount, a.available))
  else
    match priceOutcome (a.symbol ++ "-EUR") with
    | .ok (some price) => (total_amount * price, (a.symbol, total_amount, total_amount * price))
    | .ok none => (0, (a.symbol, total_amount, 0))
    | .error _ => (0, (a.symbol, total_amount, 0))

/-- Translation of `get_bitvavo_portfolio` (lines 13-71).  Missing or empty
credentials raise a `ValueError` whose message the outer `except` turns
into the error dict; a raising `balance` call does the same; otherwise the
assets are processed in order and the normal result dict is returned —
regardless of per-asset price failures, which the inner `except` absorbs. -/
def get_bitvavo_portfolio (env : BitvavoEnv) : PortfolioOutcome :=
  if py_falsy_str env.apiKey || py_falsy_str env.apiSecret then
    .failure "Bitvavo API key or secret not found in environment variables."
  else
    match env.balanceOutcome with
    | .error e => .failure e
    | .ok balance =>
      let contribs := balance.map (process_asset env.priceOutcome)
      .report (contribs.map Prod.fst).sum (contribs.map Prod.snd) env.remainingLimit

/-- Translation of `main` (lines 101-106): a Telegram send is attempted
exactly when `"error" not in portfolio_data`. -/
def main_sends_message (env : BitvavoEnv) : Bool :=
  !(get_bitvavo_portfolio env).hasErrorKey

theorem run_gate_none (calls : List (ℚ × ℚ)) :
    calls.foldl (fun acc c => acc.bind fun st => check_rate_limit c.1 st c.2)
      (none : Option GateState) = none := by
  induction calls with
  | nil => rfl
  | cons c rest ih => simpa using ih

theorem run_gate_cases (calls : List (ℚ × ℚ)) :
    ∀ (s s' : GateState), run_gate calls s = some s' →
      s' = s ∨ ∃ w t s₀, check_rate_limit w s₀ t = some s' := by
  induction calls with
  | nil =>
    intro s s' h
    exact Or.inl (Option.some_injective _ h).symm
  | cons c rest ih =>
    intro s s' h
    unfold run_gate at h
    rw [List.foldl_cons, Option.some_bind] at h
    rcases hfirst : check_rate_limit c.1 s c.2 with _ | s1
    · rw [hfirst, run_gate_none] at h
      exact absurd h (by simp)
    · rw [hfirst] at h
      rcases ih s1 s' h with h1 | h1
      · exact Or.inr ⟨c.1, c.2, s, h1 ▸ hfirst⟩
      · exact Or.inr h1

theorem reset_rate_limit_false_of_ge {s : GateState} {t : ℚ}
    (h : 60 ≤ t - s.last_reset_time) :
    reset_rate_limit false s t = some { current_weight := 0, last_reset_time := t } := by
  simp [reset_rate_limit, h]

theorem reset_rate_limit_false_of_lt {s : GateState} {t : ℚ}
    (h : ¬ 60 ≤ t - s.last_reset_time) :
    reset_rate_limit false s t = some s := by
  simp [reset_rate_limit, h]

theorem reset_rate_limit_true_of_ge {s : GateState} {t : ℚ}
    (h : 60 ≤ t - s.last_reset_time) :
    reset_rate_limit true s t = none := by
  simp [reset_rate_limit, h]

theorem check_rate_limit_le_threshold (w : ℚ) (s : GateState) (t : ℚ) (s' : GateState)
    (h : check_rate_limit w s t = some s') :
    s'.current_weight ≤ WEIGHT_THRESHOLD := by
  unfold check_rate_limit at h
  by_cases h60 : 60 ≤ t - s.last_reset_time
  · rw [reset_rate_limit_false_of_ge h60] at h
    simp only at h
    by_cases hov : WEIGHT_THRESHOLD <
        (({ current_weight := 0, last_reset_time := t } : GateState)).current_weight + w
    · rw [if_pos hov] at h
      rw [if_pos (by norm_num)] at h
      rw [reset_rate_limit_true_of_ge (by simp)] at h
      exact absurd h (by simp)
    · rw [if_neg hov] at h
      have := (Option.some_injective _ h).symm
      subst this
      simpa using not_lt.mp hov
  · rw [reset_rate_limit_false_of_lt h60] at h
    simp only at h
    by_cases hov : WEIGHT_THRESHOLD < s.current_weight + w
    · rw [if_pos hov] at h
      rw [if_pos (by push_neg at h60; linarith)] at h
      rw [reset_rate_limit_true_of_ge (by linarith)] at h
      exact absurd h (by simp)
    · rw [if_neg hov] at h
      have := (Option.some_injective _ h).symm
      subst this
      simpa using not_lt.mp hov

/-- C1 (confirmed): for every sequence of `check_rate_limit` calls, the
consumed counter is reset to zero whenever the observed clock satisfies
`now - last_reset_time >= 60`, and after every gate check that returns the
consumed counter is at most `WEIGHT_THRESHOLD = 1200 * 0.9 = 1080`:
over-threshold demand blocks (in fact the blocked call never returns, see
the deadlock theorem below) and never drives `current_weight` above the
threshold. -/
theorem rate_gate_window_invariant :
    (∀ (s : GateState) (t : ℚ), 60 ≤ t - s.last_reset_time →
        reset_rate_limit false s t = some { current_weight := 0, last_reset_time := t }) ∧
    (∀ (w : ℚ) (s : GateState) (t : ℚ) (s' : GateState),
        check_rate_limit w s t = some s' → s'.current_weight ≤ WEIGHT_THRESHOLD) ∧
    (∀ (calls : List (ℚ × ℚ)) (t0 : ℚ) (s' : GateState),
        run_gate calls { current_weight := 0, last_reset_time := t0 } = some s' →
        s'.current_weight ≤ WEIGHT_THRESHOLD) := by
  refine ⟨fun s t h => reset_rate_limit_false_of_ge h, check_rate_limit_le_threshold, ?_⟩
  intro calls t0 s' h
  rcases run_gate_cases calls _ _ h with h1 | ⟨w, t, s₀, h1⟩
  · subst h1
    norm_num [WEIGHT_THRESHOLD, RATE_LIMIT_PER_MINUTE]
  · exact check_rate_limit_le_threshold w s₀ t s' h1

/-- Witness for C1: a concrete expired window is reset, and the concrete
call sequence `run_gate [(1, 75)]` from the initial state ends at or below
the threshold. -/
theorem rate_gate_window_invariant_witness :
    reset_rate_limit false { current_weight := 500, last_reset_time := 0 } 75 =
        some { current_weight := 0, last_reset_time := 75 } ∧
    ({ current_weight := 1, last_reset_time := 75 } : GateState).current_weight ≤
        WEIGHT_THRESHOLD :=
  ⟨rate_gate_window_invariant.1 { current_weight := 500, last_reset_time := 0 } 75
      (by norm_num),
    rate_gate_window_invariant.2.2 [(1, 75)] 0 { current_weight := 1, last_reset_time := 75 }
      (by
        unfold run_gate
        simp only [List.foldl_cons, List.foldl_nil, Option.some_bind]
        unfold check_rate_limit
        rw [reset_rate_limit_false_of_ge (by norm_num)]
        norm_num [WEIGHT_THRESHOLD, RATE_LIMIT_PER_MINUTE])⟩

/-- C2 (refuted by the code, supporting a code_bug verdict): once the
window already holds `WEIGHT_THRESHOLD` weight, `check_rate_limit 1` does
block — but it never returns at all.  After `time.sleep(sleep_time)` the
function calls `reset_rate_limit()` while still holding the module `lock`
inside its own `with lock:` block; `reset_rate_limit` then re-acquires the
non-reentrant `threading.Lock`, which deadlocks, so the weight is never
added and the caller is never released.  The claim's "sleeps for the
remainder of the window and then unconditionally adds the weight" is the
evident intent (the code logs "Sleeping for ... seconds" expecting to
resume), but the code as written cannot reach the addition. -/
theorem check_rate_limit_deadlocks (w : ℚ) (s : GateState) (t : ℚ)
    (hover : WEIGHT_THRESHOLD < s.current_weight + w)
    (hwin : t - s.last_reset_time < 60) :
    check_rate_limit w s t = none := by
  unfold check_rate_limit
  rw [reset_rate_limit_false_of_lt (not_le.mpr hwin)]
  simp only
  rw [if_pos hover, if_pos (by linarith), reset_rate_limit_true_of_ge (by linarith)]

/-- Witness for C2's deadlock theorem: the concrete over-threshold call
`check_rate_limit 1` in a state with 1080 consumed and 30 seconds of
window left never returns. -/
theorem check_rate_limit_deadlocks_witness :
    check_rate_limit 1 { current_weight := 1080, last_reset_time := 0 } 30 = none :=
  check_rate_limit_deadlocks 1 { current_weight := 1080, last_reset_time := 0 } 30
    (by norm_num [WEIGHT_THRESHOLD, RATE_LIMIT_PER_MINUTE]) (by norm_num)

theorem orderedInsert_chain' {α : Type*} {r : α → α → Prop} [DecidableRel r]
    (htot : ∀ a b, r a b ∨ r b a) (a : α) :
    ∀ {l : List α}, l.Chain' r → (List.orderedInsert r a l).Chain' r
  | [], _ => List.chain'_singleton a
  | b :: bs, hl => by
    by_cases hab : r a b
    · simp only [List.orderedInsert, if_pos hab]
      exact hl.cons hab
    · simp only [List.orderedInsert, if_neg hab]
      have hba : r b a := (htot a b).resolve_left hab
      refine (orderedInsert_chain' htot a hl.tail).cons' ?_
      intro y hy
      cases bs with
      | nil =>
        simp only [List.orderedInsert, List.head?_cons, Option.mem_def,
          Option.some.injEq] at hy
        exact hy ▸ hba
      | cons c cs =>
        by_cases hac : r a c
        · simp only [List.orderedInsert, if_pos hac, List.head?_cons, Option.mem_def,
            Option.some.injEq] at hy
          exact hy ▸ hba
        · simp only [List.orderedInsert, if_neg hac, List.head?_cons, Option.mem_def,
            Option.some.injEq] at hy
          exact hy ▸ (List.chain'_cons.mp hl).1

theorem insertionSort_chain' {α : Type*} {r : α → α → Prop} [DecidableRel r]
    (htot : ∀ a b, r a b ∨ r b a) :
    ∀ l : List α, (l.insertionSort r).Chain' r
  | [] => List.chain'_nil
  | x :: xs => orderedInsert_chain' htot x (insertionSort_chain' htot xs)

theorem insertionSort_eq_of_chain' {α : Type*} {r : α → α → Prop} [DecidableRel r] :
    ∀ {l : List α}, l.Chain' r → l.insertionSort r = l
  | [], _ => rfl
  | [_], _ => rfl
  | a :: b :: l, h => by
    have ht : (b :: l).insertionSort r = b :: l :=
      insertionSort_eq_of_chain' (List.chain'_cons.mp h).2
    show List.orderedInsert r a ((b :: l).insertionSort r) = a :: b :: l
    rw [ht]
    simp only [List.orderedInsert, if_pos (List.chain'_cons.mp h).1]

theorem insertionSort_idem {α : Type*} {r : α → α → Prop} [DecidableRel r]
    (htot : ∀ a b, r a b ∨ r b a) (l : List α) :
    (l.insertionSort r).insertionSort r = l.insertionSort r :=
  insertionSort_eq_of_chain' (insertionSort_chain' htot l)

theorem filter_orderedInsert_pos {α : Type*} {r : α → α → Prop} [DecidableRel r]
    {p : α → Bool} {a : α} (hpa : p a = true) (hskip : ∀ b, ¬ r a b → p b = false) :
    ∀ l : List α, (List.orderedInsert r a l).filter p = a :: l.filter p
  | [] => by simp [List.orderedInsert, hpa]
  | b :: bs => by
    by_cases hab : r a b
    · simp [List.orderedInsert, if_pos hab, List.filter_cons, hpa]
    · simp only [List.orderedInsert, if_neg hab, List.filter_cons, hskip b hab,
        Bool.false_eq_true, if_false]
      rw [filter_orderedInsert_pos hpa hskip bs]

theorem filter_orderedInsert_neg {α : Type*} {r : α → α → Prop} [DecidableRel r]
    {p : α → Bool} {a : α} (hpa : p a = false) :
    ∀ l : List α, (List.orderedInsert r a l).filter p = l.filter p
  | [] => by simp [List.orderedInsert, hpa]
  | b :: bs => by
    by_cases hab : r a b
    · simp [List.orderedInsert, if_pos hab, List.filter_cons, hpa]
    · simp only [List.orderedInsert, if_neg hab, List.filter_cons]
      rw [filter_orderedInsert_neg hpa bs]

theorem filter_insertionSort {α : Type*} {r : α → α → Prop} [DecidableRel r]
    {p : α → Bool} (hcompat : ∀ a b, p a = true → ¬ r a b → p b = false) :
    ∀ l : List α, (l.insertionSort r).filter p = l.filter p
  | [] => rfl
  | x :: xs => by
    show (List.orderedInsert r x (xs.insertionSort r)).filter p = _
    by_cases hpx : p x = true
    · rw [filter_orderedInsert_pos hpx (fun b h => hcompat x b hpx h),
        filter_insertionSort hcompat xs]
      simp [List.filter_cons, hpx]
    · have hx : p x = false := by
        revert hpx; cases p x <;> simp
      rw [filter_orderedInsert_neg hx, filter_insertionSort hcompat xs]
      simp [List.filter_cons, hx]

theorem pairwise_of_chain'_restricted {α : Type*} {r : α → α → Prop} {P : α → Prop}
    (htr : ∀ a b c, P a → P b → P c → r a b → r b c → r a c) :
    ∀ {l : List α}, (∀ x ∈ l, P x) → l.Chain' r → l.Pairwise r
  | [], _, _ => List.Pairwise.nil
  | [a], _, _ => List.pairwise_singleton r a
  | a :: b :: l, hP, hc => by
    have hab : r a b := (List.chain'_cons.mp hc).1
    have ih : (b :: l).Pairwise r :=
      pairwise_of_chain'_restricted htr
        (fun x hx => hP x (List.mem_cons_of_mem a hx)) hc.tail
    refine List.Pairwise.cons ?_ ih
    intro y hy
    rcases List.mem_cons.mp hy with h1 | h1
    · exact h1 ▸ hab
    · have hby : r b y := (List.pairwise_cons.mp ih).1 y h1
      exact htr a b y (hP a (by simp)) (hP b (by simp))
        (hP y (List.mem_cons_of_mem a hy)) hab hby

theorem floatLt_asymm {α : Type*} [LinearOrder α] :
    ∀ {a b : Option α}, floatLt a b → ¬ floatLt b a
  | some _, some _, h => fun h' => absurd h (lt_asymm h')

theorem scoreDescLe_total {α : Type*} [LinearOrder α] (x y : String × Option α) :
    scoreDescLe x y ∨ scoreDescLe y x := by
  by_cases h : floatLt x.2 y.2
  · exact Or.inr (floatLt_asymm h)
  · exact Or.inl h

/-- C8 (confirmed): for every ticker list and every `n`,
`get_top_liquid_coins` returns at most `n` symbols, every returned symbol
ends with the quote-currency suffix `"USDT"`, the sorted ticker list (whose
first `n` symbols are returned) is ordered by descending quoted volume, and
entries of equal volume keep their original (stable) order: filtering the
sorted list to any fixed volume yields the same subsequence as filtering
the unsorted USDT pairs. -/
theorem get_top_liquid_coins_spec (tickers : List Ticker) (n : ℕ) :
    (get_top_liquid_coins tickers n).length ≤ n ∧
    (∀ s ∈ get_top_liquid_coins tickers n, py_endswith s "USDT" = true) ∧
    (sorted_tickers tickers).Sorted (fun a b => b.quoteVolume ≤ a.quoteVolume) ∧
    (∀ v : ℚ, (sorted_tickers tickers).filter (fun t => decide (t.quoteVolume = v)) =
        (usdt_pairs tickers).filter (fun t => decide (t.quoteVolume = v))) := by
  have htot : ∀ a b : Ticker, tickerDescLe a b ∨ tickerDescLe b a := fun a b => by
    unfold tickerDescLe
    rcases le_total a.quoteVolume b.quoteVolume with h | h
    · exact Or.inr (not_lt.mpr h)
    · exact Or.inl (not_lt.mpr h)
  refine ⟨?_, ?_, ?_, ?_⟩
  · unfold get_top_liquid_coins
    rw [List.length_map, List.length_take]
    exact min_le_left _ _
  · intro s hs
    unfold get_top_liquid_coins at hs
    rcases List.mem_map.mp hs with ⟨t, ht, rfl⟩
    have h1 : t ∈ sorted_tickers tickers := List.mem_of_mem_take ht
    have h2 : t ∈ usdt_pairs tickers :=
      (List.perm_insertionSort tickerDescLe (usdt_pairs tickers)).subset h1
    unfold usdt_pairs at h2
    exact List.of_mem_filter (p := fun tk : Ticker => py_endswith tk.symbol "USDT") h2
  · have hchain := insertionSort_chain' htot (usdt_pairs tickers)
    have hpw : (sorted_tickers tickers).Pairwise tickerDescLe :=
      pairwise_of_chain'_restricted (r := tickerDescLe) (P := fun _ => True)
        (fun a b c _ _ _ hab hbc =>
          not_lt.mpr (le_trans (not_lt.mp hbc) (not_lt.mp hab)))
        (fun _ _ => trivial) hchain
    exact hpw.imp fun h => not_lt.mp h
  · intro v
    refine filter_insertionSort ?_ (usdt_pairs tickers)
    intro a b hpa hnr
    have hav : a.quoteVolume = v := of_decide_eq_true hpa
    have hlt : a.quoteVolume < b.quoteVolume := not_not.mp hnr
    exact decide_eq_false (ne_of_gt (hav ▸ hlt))

/-- Witness for C8 at a concrete ticker list: the second-largest USDT pair
is returned (so it ends in "USDT") and at most two symbols come back. -/
theorem get_top_liquid_coins_spec_witness :
    py_endswith "ETHUSDT" "USDT" = true ∧
    (get_top_liquid_coins
        [{ symbol := "BTCUSDT", quoteVolume := 5 }, { symbol := "XEUR", quoteVolume := 9 },
          { symbol := "ETHUSDT", quoteVolume := 7 }] 2).length ≤ 2 :=
  ⟨(get_top_liquid_coins_spec
        [{ symbol := "BTCUSDT", quoteVolume := 5 }, { symbol := "XEUR", quoteVolume := 9 },
          { symbol := "ETHUSDT", quoteVolume := 7 }] 2).2.1 "ETHUSDT" (by decide),
    (get_top_liquid_coins_spec
        [{ symbol := "BTCUSDT", quoteVolume := 5 }, { symbol := "XEUR", quoteVolume := 9 },
          { symbol := "ETHUSDT", quoteVolume := 7 }] 2).1⟩

/-- C3 (confirmed): `fetch_all_results` yields exactly one result per
symbol, at the symbol's own submission position (order is submission
order, not completion order), a task whose body raises yields
`(symbol, none)` for that symbol only, and a task whose body succeeds
yields its frame — so one task's failure cannot disturb any sibling entry
or the overall collection. -/
theorem fetch_all_results_spec (f : String → Except String (List ℝ))
    (symbols : List String) :
    (fetch_all_results f symbols).length = symbols.length ∧
    (∀ i : ℕ, (fetch_all_results f symbols)[i]? =
        (symbols[i]?).map (fetch_candlestick_data f)) ∧
    (∀ sym e, f sym = .error e → fetch_candlestick_data f sym = (sym, none)) ∧
    (∀ sym df, f sym = .ok df → fetch_candlestick_data f sym = (sym, some df)) := by
  refine ⟨by simp [fetch_all_results], fun i => by simp [fetch_all_results],
    fun sym e h => ?_, fun sym df h => ?_⟩
  · unfold fetch_candlestick_data
    rw [h]
  · unfold fetch_candlestick_data
    rw [h]

/-- Witness for C3 at a concrete oracle: the failing symbol maps to
`(symbol, none)` and the succeeding one to its frame. -/
theorem fetch_all_results_spec_witness :
    fetch_candlestick_data
        (fun s => if s = "BAD" then Except.error "boom" else Except.ok ([] : List ℝ))
        "BAD" = ("BAD", none) ∧
    fetch_candlestick_data
        (fun s => if s = "BAD" then Except.error "boom" else Except.ok ([] : List ℝ))
        "OK" = ("OK", some []) :=
  ⟨(fetch_all_results_spec _ ["OK", "BAD"]).2.2.1 "BAD" "boom" (by rfl),
    (fetch_all_results_spec _ ["OK", "BAD"]).2.2.2 "OK" [] (by rfl)⟩

theorem zipWith_np_log_of_pos :
    ∀ (l1 l2 : List ℝ), (∀ x ∈ l1, 0 < x) → (∀ x ∈ l2, 0 < x) →
      List.zipWith (fun prev cur => np_log (cur / prev)) l1 l2 =
        (List.zipWith (fun prev cur => Real.log (cur / prev)) l1 l2).map some
  | [], _, _, _ => by simp
  | _ :: _, [], _, _ => by simp
  | a :: l1, b :: l2, h1, h2 => by
    have hpos : 0 < b / a := div_pos (h2 b (by simp)) (h1 a (by simp))
    simp only [List.zipWith_cons_cons, List.map_cons, np_log, if_pos hpos]
    exact congrArg _ (zipWith_np_log_of_pos l1 l2
      (fun x hx => h1 x (List.mem_cons_of_mem a hx))
      (fun x hx => h2 x (List.mem_cons_of_mem b hx)))

theorem pandas_std_none_map_some (r : List ℝ) :
    pandas_std (none :: r.map some) = spec_stddev r := by
  unfold pandas_std spec_stddev
  simp

/-- C6 (confirmed): for a series of `k` positive closes, the log-return
series entering the score has exactly `k - 1` elements (natural-number
subtraction, so `max (k-1) 0`), and the computed volatility equals the
sample standard deviation of those elements times `sqrt 1440` (both sides
undefined, `none`, exactly when fewer than two log returns exist). -/
theorem calculate_volatility_spec (closes : List ℝ) (hpos : ∀ x ∈ closes, 0 < x) :
    (spec_log_returns closes).length = closes.length - 1 ∧
    calculate_volatility (some closes) =
      Option.map (fun sd => sd * Real.sqrt 1440) (spec_stddev (spec_log_returns closes)) := by
  constructor
  · unfold spec_log_returns
    rw [List.length_zipWith, List.length_tail]
    exact Nat.min_eq_right (Nat.sub_le _ _)
  · cases closes with
    | nil => simp [calculate_volatility, spec_log_returns, spec_stddev]
    | cons c cs =>
      have hred : calculate_volatility (some (c :: cs)) =
          match pandas_std (pandas_log_return_column (c :: cs)) with
          | none => none
          | some sd => some (sd * Real.sqrt 1440) := rfl
      have hcol : pandas_log_return_column (c :: cs) =
          none :: (spec_log_returns (c :: cs)).map some := by
        unfold pandas_log_return_column spec_log_returns
        simp only [List.tail_cons]
        rw [zipWith_np_log_of_pos _ _ hpos
          (fun x hx => hpos x (List.mem_cons_of_mem c hx))]
      rw [hred, hcol, pandas_std_none_map_some]
      rcases spec_stddev (spec_log_returns (c :: cs)) with _ | sd <;> simp

/-- Witness for C6 at the concrete positive series `[1, 2, 4]`. -/
theorem calculate_volatility_spec_witness :
    (spec_log_returns [(1 : ℝ), 2, 4]).length = 2 ∧
    calculate_volatility (some [(1 : ℝ), 2, 4]) =
      Option.map (fun sd => sd * Real.sqrt 1440)
        (spec_stddev (spec_log_returns [(1 : ℝ), 2, 4])) :=
  calculate_volatility_spec [(1 : ℝ), 2, 4] (by norm_num)

/-- C4, counterexample: the claim that symbols with absent-or-empty series
are excluded before sorting (so that the sorted sequence has only defined
scores) is false on the code: a present-but-empty frame is scored NaN and
carried through the sort, and gets dropped only by the later `[:10]` /
`[-10:]` filters.  Concretely, for the single result `("A", empty frame)`
the sorted sequence contains the NaN-scored entry `("A", NaN)`. -/
theorem sorted_volatilities_carries_nan :
    ¬ ∀ e ∈ sorted_volatilities [("A", some ([] : List ℝ))], e.2.isSome = true := by
  intro h
  have h0 : sorted_volatilities [("A", some ([] : List ℝ))] =
      [("A", (none : Option ℝ))] := rfl
  have h1 := h ("A", none) (h0 ▸ List.mem_singleton_self _)
  simp at h1

/-- C4 (corrected): absent (`None`) frames are excluded before scoring, and
every present frame — including an empty one, whose score is NaN — is
scored and carried into the sort; the sorted sequence is a permutation of
the scored list, the top-10 and bottom-10 lists never contain an undefined
score thanks to their own `isnan` filters, and whenever every score is
defined the sorted sequence is ordered by descending score. -/
theorem ranking_pipeline_spec (results : List (String × Option (List ℝ))) :
    (∀ sym sc, (sym, sc) ∈ score_volatilities results ↔
        ∃ df, (sym, some df) ∈ results ∧ sc = calculate_volatility (some df)) ∧
    (sorted_volatilities results).Perm (score_volatilities results) ∧
    (∀ e ∈ top_k_volatile 10 (sorted_volatilities results), e.2.isSome = true) ∧
    (∀ e ∈ bottom_k_volatile 10 (sorted_volatilities results), e.2.isSome = true) ∧
    ((∀ e ∈ score_volatilities results, e.2.isSome = true) →
      (sorted_volatilities results).Sorted scoreDescLe) := by
  refine ⟨?_, List.perm_insertionSort _ _,
    fun e he => List.of_mem_filter (p := fun e : String × Option ℝ => e.2.isSome) he,
    fun e he => List.of_mem_filter (p := fun e : String × Option ℝ => e.2.isSome) he, ?_⟩
  · intro sym sc
    unfold score_volatilities
    rw [List.mem_filterMap]
    constructor
    · rintro ⟨⟨s, odf⟩, hmem, hf⟩
      cases odf with
      | none => simp at hf
      | some df =>
        simp only [Option.some.injEq, Prod.mk.injEq] at hf
        exact ⟨df, hf.1 ▸ hmem, hf.2.symm⟩
    · rintro ⟨df, hmem, rfl⟩
      exact ⟨(sym, some df), hmem, rfl⟩
  · intro hall
    have hall' : ∀ e ∈ sorted_volatilities results, e.2.isSome = true := fun e he =>
      hall e ((List.perm_insertionSort _ _).subset he)
    refine pairwise_of_chain'_restricted (r := scoreDescLe)
      (P := fun e => e.2.isSome = true) ?_ hall'
      (insertionSort_chain' scoreDescLe_total _)
    intro a b c ha hb hc hab hbc
    rcases Option.isSome_iff_exists.mp ha with ⟨x, hx⟩
    rcases Option.isSome_iff_exists.mp hb with ⟨y, hy⟩
    rcases Option.isSome_iff_exists.mp hc with ⟨z, hz⟩
    unfold scoreDescLe at hab hbc ⊢
    simp only [hx, hy, hz, floatLt, not_lt] at hab hbc ⊢
    exact le_trans hbc hab

/-- Witness for C4's corrected claim: for a concrete result list, the
present frame of symbol A is scored and enters the scored list. -/
theorem ranking_pipeline_spec_witness :
    ("A", calculate_volatility (some [(1 : ℝ), 2])) ∈
      score_volatilities [("A", some [(1 : ℝ), 2]), ("B", none)] :=
  ((ranking_pipeline_spec [("A", some [(1 : ℝ), 2]), ("B", none)]).1 "A"
      (calculate_volatility (some [(1 : ℝ), 2]))).mpr
    ⟨[(1 : ℝ), 2], List.mem_cons_self _ _, rfl⟩

/-- C5 (confirmed): for every ranked sequence with pairwise-distinct
symbols (which every pipeline run on a duplicate-free market list
produces) and every `k` with `2 * k ≤ length`, the symbol sets of the
top-`k` and bottom-`k` selections are disjoint, and neither selection
contains an undefined (NaN) score. -/
theorem top_bottom_disjoint (ranked : List (String × Option ℝ)) (k : ℕ)
    (hnd : (ranked.map Prod.fst).Nodup) (hk : 2 * k ≤ ranked.length) :
    (∀ s ∈ (top_k_volatile k ranked).map Prod.fst,
        s ∉ (bottom_k_volatile k ranked).map Prod.fst) ∧
    (∀ e ∈ top_k_volatile k ranked, e.2.isSome = true) ∧
    (∀ e ∈ bottom_k_volatile k ranked, e.2.isSome = true) := by
  refine ⟨?_,
    fun e he => List.of_mem_filter (p := fun e : String × Option ℝ => e.2.isSome) he,
    fun e he => List.of_mem_filter (p := fun e : String × Option ℝ => e.2.isSome) he⟩
  rcases Nat.eq_zero_or_pos k with rfl | hkpos
  · intro s hs
    simp [top_k_volatile] at hs
  · intro s hs hsb
    rcases List.mem_map.mp hs with ⟨e, he, rfl⟩
    rcases List.mem_map.mp hsb with ⟨e', he', heq⟩
    have h1 : e ∈ ranked.take k := List.mem_of_mem_filter he
    have h2 : e' ∈ ranked.drop (ranked.length - k) := by
      have h3 : e' ∈ py_slice_last k ranked :=
        List.mem_of_mem_filter (p := fun e : String × Option ℝ => e.2.isSome) he'
      unfold py_slice_last at h3
      rwa [if_neg (Nat.pos_iff_ne_zero.mp hkpos)] at h3
    have htop : e.1 ∈ ((ranked.map Prod.fst).take k) := by
      rw [← List.map_take]
      exact List.mem_map_of_mem _ h1
    have hbot : e.1 ∈ ((ranked.map Prod.fst).drop ((ranked.map Prod.fst).length - k)) := by
      rw [← heq, ← List.map_drop, List.length_map]
      exact List.mem_map_of_mem _ h2
    have hle : k ≤ (ranked.map Prod.fst).length - k := by
      rw [List.length_map]
      omega
    exact List.disjoint_take_drop hnd hle htop hbot

/-- Witness for C5 at a concrete three-entry ranked sequence with `k = 1`:
the top symbol does not reappear among the bottom symbols. -/
theorem top_bottom_disjoint_witness :
    "A" ∉ (bottom_k_volatile 1
        [("A", some (2 : ℝ)), ("B", none), ("C", some 1)]).map Prod.fst :=
  (top_bottom_disjoint [("A", some (2 : ℝ)), ("B", none), ("C", some 1)] 1
      (by decide) (by decide)).1 "A" (by decide)

/-- C7 (confirmed): re-applying the ranking sort to the sequence it has
already produced returns that sequence unchanged, for every input result
list — including those whose scores contain NaN. -/
theorem rank_idempotent (results : List (String × Option (List ℝ))) :
    sort_volatilities (sorted_volatilities results) = sorted_volatilities results := by
  unfold sorted_volatilities sort_volatilities
  exact insertionSort_idem scoreDescLe_total _

theorem get_bitvavo_portfolio_ok (env : BitvavoEnv) (balance : List BAsset)
    (hc : (py_falsy_str env.apiKey || py_falsy_str env.apiSecret) = false)
    (hb : env.balanceOutcome = .ok balance) :
    get_bitvavo_portfolio env =
      .report ((balance.map (process_asset env.priceOutcome)).map Prod.fst).sum
        ((balance.map (process_asset env.priceOutcome)).map Prod.snd)
        env.remainingLimit := by
  unfold get_bitvavo_portfolio
  rw [hc, hb]
  simp

/-- C9, counterexample: an internal exception — here a raising per-asset
price fetch — is caught by the inner handler but is not converted into a
dict with an "error" key: `get_bitvavo_portfolio` returns the normal
result dict (the asset valued at 0) and `main` does send a Telegram
message despite the internal failure. -/
theorem portfolio_inner_exception_no_error_key :
    (fun _ : String => (Except.error "boom" : Except String (Option ℚ))) "BTC-EUR" =
        Except.error "boom" ∧
    (get_bitvavo_portfolio
        { apiKey := some "k", apiSecret := some "s",
          balanceOutcome := .ok [{ symbol := "BTC", available := 1, inOrder := 0 }],
          priceOutcome := fun _ => .error "boom",
          remainingLimit := 900 }).hasErrorKey = false ∧
    main_sends_message
        { apiKey := some "k", apiSecret := some "s",
          balanceOutcome := .ok [{ symbol := "BTC", available := 1, inOrder := 0 }],
          priceOutcome := fun _ => .error "boom",
          remainingLimit := 900 } = true :=
  ⟨rfl, rfl, rfl⟩

/-- C9 (corrected): `get_bitvavo_portfolio` is a total function of its
environment, so it never raises to its caller.  Exceptions reaching its
outer handler — missing or empty credentials, a raising balance call —
are converted into a dict whose only key is "error", and `main` attempts
the Telegram send exactly when the returned dict has no "error" key.  A
per-asset price-fetch exception, however, is caught by the inner handler
and leaves a zero-valued entry in a normal error-free dict, so a message
is still sent despite that internal exception. -/
theorem get_bitvavo_portfolio_spec (env : BitvavoEnv) :
    ((py_falsy_str env.apiKey || py_falsy_str env.apiSecret) = true →
        get_bitvavo_portfolio env =
          .failure "Bitvavo API key or secret not found in environment variables.") ∧
    (∀ e, (py_falsy_str env.apiKey || py_falsy_str env.apiSecret) = false →
        env.balanceOutcome = .error e → get_bitvavo_portfolio env = .failure e) ∧
    (∀ balance, (py_falsy_str env.apiKey || py_falsy_str env.apiSecret) = false →
        env.balanceOutcome = .ok balance →
        get_bitvavo_portfolio env =
          .report ((balance.map (process_asset env.priceOutcome)).map Prod.fst).sum
            ((balance.map (process_asset env.priceOutcome)).map Prod.snd)
            env.remainingLimit) ∧
    (∀ a : BAsset, ∀ err, a.symbol ≠ "EUR" →
        env.priceOutcome (a.symbol ++ "-EUR") = .error err →
        process_asset env.priceOutcome a =
          (0, (a.symbol, a.available + a.inOrder, 0))) ∧
    (main_sends_message env = true ↔ (get_bitvavo_portfolio env).hasErrorKey = false) := by
  refine ⟨?_, ?_, fun balance hc hb => get_bitvavo_portfolio_ok env balance hc hb, ?_, ?_⟩
  · intro hc
    unfold get_bitvavo_portfolio
    rw [hc]
    simp
  · intro e hc hb
    unfold get_bitvavo_portfolio
    rw [hc, hb]
    simp
  · intro a err hne herr
    unfold process_asset
    rw [if_neg hne, herr]
  · unfold main_sends_message
    cases get_bitvavo_portfolio env <;> simp [PortfolioOutcome.hasErrorKey]

/-- Witness for C9's corrected claim: a concrete raising balance call
produces the error dict. -/
theorem get_bitvavo_portfolio_spec_witness :
    get_bitvavo_portfolio
        { apiKey := some "k", apiSecret := some "s",
          balanceOutcome := .error "connection down",
          priceOutcome := fun _ => .ok none, remainingLimit := 5 } =
      .failure "connection down" :=
  (get_bitvavo_portfolio_spec
      { apiKey := some "k", apiSecret := some "s",
        balanceOutcome := .error "connection down",
        priceOutcome := fun _ => .ok none, remainingLimit := 5 }).2.1
    "connection down" rfl rfl

/-- C10 (confirmed): the EUR asset contributes only its `available` amount
to its own `value_eur` and to the running total (the `inOrder` part is
excluded from the valuation), yet its reported per-asset amount
`available + inOrder` does include `inOrder`; every non-EUR asset with a
fetched price is valued at `(available + inOrder) * price`; and the
reported total is the sum of the per-asset contributions. -/
theorem portfolio_valuation_spec (env : BitvavoEnv) :
    (∀ a : BAsset, a.symbol = "EUR" →
        process_asset env.priceOutcome a =
          (a.available, ("EUR", a.available + a.inOrder, a.available))) ∧
    (∀ a : BAsset, ∀ p, a.symbol ≠ "EUR" →
        env.priceOutcome (a.symbol ++ "-EUR") = .ok (some p) →
        process_asset env.priceOutcome a =
          ((a.available + a.inOrder) * p,
            (a.symbol, a.available + a.inOrder, (a.available + a.inOrder) * p))) ∧
    (∀ balance, (py_falsy_str env.apiKey || py_falsy_str env.apiSecret) = false →
        env.balanceOutcome = .ok balance →
        get_bitvavo_portfolio env =
          .report ((balance.map (process_asset env.priceOutcome)).map Prod.fst).sum
            ((balance.map (process_asset env.priceOutcome)).map Prod.snd)
            env.remainingLimit) := by
  refine ⟨?_, ?_, fun balance hc hb => get_bitvavo_portfolio_ok env balance hc hb⟩
  · intro a h
    unfold process_asset
    rw [if_pos h, h]
  · intro a p hne hp
    unfold process_asset
    rw [if_neg hne, hp]

/-- Witness for C10 at concrete assets: an EUR asset with 3 available and
2 in order is valued at 3 while reporting amount 5, and a non-EUR asset
with price 10 is valued on available plus inOrder. -/
theorem portfolio_valuation_spec_witness :
    process_asset (fun _ => .ok (some 10)) { symbol := "EUR", available := 3, inOrder := 2 } =
      (3, ("EUR", 3 + 2, 3)) ∧
    process_asset (fun _ => .ok (some 10)) { symbol := "BTC", available := 1, inOrder := 2 } =
      ((1 + 2) * 10, ("BTC", 1 + 2, (1 + 2) * 10)) :=
  ⟨(portfolio_valuation_spec
      { apiKey := some "k", apiSecret := some "s", balanceOutcome := .ok [],
        priceOutcome := fun _ => .ok (some 10), remainingLimit := 0 }).1
      { symbol := "EUR", available := 3, inOrder := 2 } rfl,
    (portfolio_valuation_spec
      { apiKey := some "k", apiSecret := some "s", balanceOutcome := .ok [],
        priceOutcome := fun _ => .ok (some 10), remainingLimit := 0 }).2.1
      { symbol := "BTC", available := 1, inOrder := 2 } 10 (by decide) rfl⟩
